import Mathlib

/-!
Verification of the EZO-EC conductimeter firmware (`src/main.cpp`) against its
natural-language specification.

The embedding models the three core components: the line transport
(`ezoReadLine`), the reply classifier/parser (`parseEcLine`), and the command
interpreter (`processCommand`).  Strings are modelled as `List Char`
internally (the firmware's `String` is byte-oriented ASCII), with Lean
`String` at the API boundary.  Numeric values (C `float`) are modelled as
exact rationals: the `avr-libc` decimal parse (`atof`/`atol`, as used by
`String::toFloat`/`String::toInt`) and the fixed-precision printer
(`dtostrf`) are given exact-arithmetic models; binary floating-point rounding
and hex/inf/nan literal forms are out of scope.
-/

/-- Model of C `isspace` on ASCII, as used by Arduino `String::trim`. -/
def isSpaceB (c : Char) : Bool :=
  c = ' ' ∨ c = '\t' ∨ c = '\n' ∨ c = '\x0b' ∨ c = '\x0c' ∨ c = '\r'

/-- Printable ASCII test `32 <= c && c <= 126` from `ezoReadLine` (main.cpp:36). -/
def isPrintableB (c : Char) : Bool :=
  32 ≤ c.toNat ∧ c.toNat ≤ 126

/-- Model of Arduino `String::trim`: strip leading and trailing whitespace. -/
def trimB (l : List Char) : List Char :=
  ((l.dropWhile isSpaceB).reverse.dropWhile isSpaceB).reverse

/-- Split a character list on commas.  This models the firmware's repeated
`indexOf(',', pos)` / `substring(pos, c)` walk: the resulting elements are
exactly the comma-delimited segments, in order. -/
def splitCommas : List Char → List (List Char)
  | [] => [[]]
  | c :: r =>
    if c = ',' then [] :: splitCommas r
    else
      match splitCommas r with
      | t :: ts => (c :: t) :: ts
      | [] => [[c]]

/-- Rejoin comma-separated segments; `joinCommas (splitCommas s).tail...`
recovers `substring` pieces that themselves contain commas (the text after
the third comma in the unlabeled four-field parse, main.cpp:133). -/
def joinCommas : List (List Char) → List Char
  | [] => []
  | [t] => t
  | t :: ts => t ++ ',' :: joinCommas ts

/-- Boolean list-prefix test (model of Arduino `String::startsWith`). -/
def isPrefixB : List Char → List Char → Bool
  | [], _ => true
  | _ :: _, [] => false
  | a :: as, b :: bs => a = b && isPrefixB as bs

/-- Boolean substring test (model of Arduino `String::indexOf(str) != -1`). -/
def isInfixB (p : List Char) : List Char → Bool
  | [] => isPrefixB p []
  | c :: r => isPrefixB p (c :: r) || isInfixB p r

/-- Model of Arduino `String::toLowerCase` (per-character ASCII tolower). -/
def toLowerCL (l : List Char) : List Char :=
  l.map Char.toLower

/-- Value of a list of decimal digit characters, most significant first. -/
def digitsVal (l : List Char) : Nat :=
  l.foldl (fun acc c => 10 * acc + (c.toNat - 48)) 0

/-- Exponent digits of a decimal float literal: optional sign then digits;
yields 0 when no digits follow (the exponent part is then not consumed,
matching `strtod`). -/
def expDigits (r : List Char) : Int :=
  match r with
  | '-' :: t => - (digitsVal (t.takeWhile Char.isDigit) : Int)
  | '+' :: t => (digitsVal (t.takeWhile Char.isDigit) : Int)
  | _ => (digitsVal (r.takeWhile Char.isDigit) : Int)

/-- Exponent part of a decimal float literal (`e`/`E` then signed digits). -/
def expVal (s : List Char) : Int :=
  match s with
  | 'e' :: r => expDigits r
  | 'E' :: r => expDigits r
  | _ => 0

/-- Exact-rational model of `atof` as called by Arduino `String::toFloat`:
skip whitespace, optional sign, integer digits, optional fraction, optional
exponent; 0 when no digits are present at all (parse failure).  The value
`sign * digits(ip ++ fp) * 10 ^ (exp - |fp|)` is assembled with `mkRat` so
that the definition evaluates by kernel reduction. -/
def qfloat (s : List Char) : ℚ :=
  let r0 := s.dropWhile isSpaceB
  let sr : Int × List Char :=
    match r0 with
    | '-' :: t => (-1, t)
    | '+' :: t => (1, t)
    | _ => (1, r0)
  let ip := sr.2.takeWhile Char.isDigit
  let r2 := sr.2.dropWhile Char.isDigit
  let fr : List Char × List Char :=
    match r2 with
    | '.' :: t => (t.takeWhile Char.isDigit, t.dropWhile Char.isDigit)
    | _ => ([], r2)
  if ip = [] ∧ fr.1 = [] then 0
  else
    let e : Int := expVal fr.2 - fr.1.length
    let m : Int := sr.1 * digitsVal (ip ++ fr.1)
    if 0 ≤ e then mkRat (m * (10 : Int) ^ e.toNat) 1
    else mkRat m ((10 : Nat) ^ (-e).toNat)

/-- Model of `atol` as called by Arduino `String::toInt`: skip whitespace,
optional sign, decimal digits; 0 when no digits.  The value is the ideal
mathematical integer (overflow of the 32-bit `long` during parsing is
undefined behaviour in the source and is handled by range hypotheses at the
use sites). -/
def qint (s : List Char) : Int :=
  let r0 := s.dropWhile isSpaceB
  match r0 with
  | '-' :: t => - (digitsVal (t.takeWhile Char.isDigit) : Int)
  | '+' :: t => (digitsVal (t.takeWhile Char.isDigit) : Int)
  | _ => (digitsVal (r0.takeWhile Char.isDigit) : Int)

/-- Model of `dtostrf(v, 0, 2, buf)`: sign, integer part, `.`, exactly two
fraction digits, rounding the magnitude to the nearest hundredth (ties up);
`n` below is `floor (|q| * 100 + 1/2)` computed on numerator and
denominator. -/
def fmt2 (q : ℚ) : String :=
  let n : Nat := (q.num.natAbs * 200 + q.den) / (2 * q.den)
  (if q < 0 then "-" else "") ++ toString (n / 100) ++ "." ++
    (if n % 100 < 10 then "0" else "") ++ toString (n % 100)

/-- Model of `dtostrf(v, 0, 1, buf)`: one fraction digit, rounding the
magnitude to the nearest tenth (ties up). -/
def fmt1 (q : ℚ) : String :=
  let n : Nat := (q.num.natAbs * 20 + q.den) / (2 * q.den)
  (if q < 0 then "-" else "") ++ toString (n / 10) ++ "." ++ toString (n % 10)

/-- Label-routing test of `parseEcLine` (main.cpp:101): the line is parsed in
the labeled format when it contains any of `EC`, `TDS`, `SAL`, `SG` as a
substring (`indexOf != -1`). -/
def labelRoute (s : List Char) : Bool :=
  isInfixB "EC".toList s || isInfixB "TDS".toList s ||
    isInfixB "SAL".toList s || isInfixB "SG".toList s

/-- Token walk of the labeled format (main.cpp:103-118): scan comma tokens;
when a trimmed token equals a label, the next token (trimmed, float-parsed)
is that field's value and the scan advances past it.  The `found` counter of
the source is omitted (it is never read). -/
def labeledWalk : List (List Char) → ℚ → ℚ → ℚ → ℚ → Bool → ℚ × ℚ × ℚ × ℚ × Bool
  | [], lec, ltds, lsal, lsg, ef => (lec, ltds, lsal, lsg, ef)
  | [tok], lec, ltds, lsal, lsg, ef =>
    let t := trimB tok
    if t = "EC".toList then (qfloat [], ltds, lsal, lsg, true)
    else if t = "TDS".toList then (lec, qfloat [], lsal, lsg, ef)
    else if t = "SAL".toList then (lec, ltds, qfloat [], lsg, ef)
    else if t = "SG".toList then (lec, ltds, lsal, qfloat [], ef)
    else (lec, ltds, lsal, lsg, ef)
  | tok :: nxt :: rest, lec, ltds, lsal, lsg, ef =>
    let t := trimB tok
    if t = "EC".toList then labeledWalk rest (qfloat (trimB nxt)) ltds lsal lsg true
    else if t = "TDS".toList then labeledWalk rest lec (qfloat (trimB nxt)) lsal lsg ef
    else if t = "SAL".toList then labeledWalk rest lec ltds (qfloat (trimB nxt)) lsg ef
    else if t = "SG".toList then labeledWalk rest lec ltds lsal (qfloat (trimB nxt)) ef
    else labeledWalk (nxt :: rest) lec ltds lsal lsg ef

/-- Model of `parseEcLine` (main.cpp:95-136).  The C++ routine writes its
four reference parameters only on success; this is modelled by threading the
caller's prior values `ec tds sal sg` through and returning them unchanged on
every `false` path. -/
def parseEcLine (line : String) (ec tds sal sg : ℚ) : Bool × ℚ × ℚ × ℚ × ℚ :=
  if trimB line.toList = [] then (false, ec, tds, sal, sg)
  else if isPrefixB "*OK".toList (trimB line.toList) then (false, ec, tds, sal, sg)
  else if labelRoute (trimB line.toList) then
    match labeledWalk (splitCommas (trimB line.toList)) 0 0 0 0 false with
    | (lec, ltds, lsal, lsg, true) => (true, lec, ltds, lsal, lsg)
    | _ => (false, ec, tds, sal, sg)
  else
    match splitCommas (trimB line.toList) with
    | [] => (false, ec, tds, sal, sg)
    | [_] => (true, qfloat (trimB line.toList), 0, 0, 0)
    | [_, _] => (false, ec, tds, sal, sg)
    | [_, _, _] => (false, ec, tds, sal, sg)
    | a :: b :: c :: ds => (true, qfloat a, qfloat b, qfloat c, qfloat (joinCommas ds))

/-- Accumulator loop of `ezoReadLine` (main.cpp:30-40): consume the bytes
delivered before the timeout; a carriage return ends the line, printable
bytes are appended, others dropped. -/
def ezoReadLineAux : List Char → List Char → List Char
  | [], acc => acc
  | c :: r, acc =>
    if c = '\r' then acc
    else if isPrintableB c then ezoReadLineAux r (acc ++ [c])
    else ezoReadLineAux r acc

/-- Model of `ezoReadLine` (main.cpp:27-42).  `bytes` are the characters the
sensor channel delivers before the timeout expires, in order; if no `'\r'`
is among them the loop exits by timeout and returns whatever accumulated. -/
def ezoReadLine (bytes : List Char) : String :=
  String.mk (ezoReadLineAux bytes [])

/-- Session/config state of the sketch (main.cpp:15-19).  `lastReadMs`, the
periodic-sampling timestamp, belongs to the sampling driver and is not
touched by the command interpreter, so it is not modelled here. -/
structure SessionState where
  outputsConfigured : Bool
  streamingEnabled : Bool
  readPeriodMs : Nat
  printRaw : Bool
deriving DecidableEq

/-- Initial values of the globals (main.cpp:15-19). -/
def initialState : SessionState :=
  ⟨false, false, 1000, false⟩

/-- Observable effects of one interpreted command line: either a wire command
handed to `ezoQuery(cmd, timeoutMs)`, or a diagnostic message printed on the
operator channel. -/
inductive Ev where
  | wire : String → Nat → Ev
  | msg : String → Ev
deriving DecidableEq

/-- Split at the first space, modelling `indexOf(' ')` plus the two
`substring` calls (main.cpp:198-200): the part before the first space and,
when a space exists, the part after it. -/
def splitFirstSpace : List Char → List Char × Option (List Char)
  | [] => ([], none)
  | c :: r =>
    if c = ' ' then ([], some r)
    else
      let p := splitFirstSpace r
      (c :: p.1, p.2)

/-- Guard of the bare-magnitude calibration shortcut (main.cpp:237):
`b.length() > 0 && (isDigit(b[0]) || b[0] == '-' || b[0] == '+')`. -/
def calShortcut : List Char → Bool
  | [] => false
  | c :: _ => c.isDigit || c = '-' || c = '+'

/-- Mode auto-selection of the calibration shortcut (main.cpp:241). -/
def calMode (v : ℚ) : String :=
  if v ≤ 200 then "low" else if v ≤ 3000 then "mid" else "high"

/-- The `t` branch (main.cpp:207-215). -/
def tCmd (rest : List Char) (st : SessionState) : SessionState × List Ev :=
  if rest = "?".toList then (st, [Ev.wire "T,?" 1200])
  else (st, [Ev.wire ("T," ++ fmt2 (qfloat rest)) 1200])

/-- The `cal` branch (main.cpp:216-247): sub-verb split, literal modes,
explicit low/mid/high with required value, bare-magnitude shortcut. -/
def calCmd (rest : List Char) (st : SessionState) : SessionState × List Ev :=
  if toLowerCL (splitFirstSpace rest).1 = "clear".toList then (st, [Ev.wire "Cal,clear" 1500])
  else if toLowerCL (splitFirstSpace rest).1 = "dry".toList then (st, [Ev.wire "Cal,dry" 2000])
  else if toLowerCL (splitFirstSpace rest).1 = "?".toList then (st, [Ev.wire "Cal,?" 1500])
  else if toLowerCL (splitFirstSpace rest).1 = "low".toList ∨
      toLowerCL (splitFirstSpace rest).1 = "mid".toList ∨
      toLowerCL (splitFirstSpace rest).1 = "high".toList then
    if trimB ((splitFirstSpace rest).2.getD []) = [] then
      (st, [Ev.msg "[Cal] Falta valor en uS/cm, ej: cal low 84.0"])
    else
      (st, [Ev.wire ("Cal," ++ String.mk (toLowerCL (splitFirstSpace rest).1) ++ "," ++
        fmt2 (qfloat (trimB ((splitFirstSpace rest).2.getD [])))) 4000])
  else if calShortcut (toLowerCL (splitFirstSpace rest).1) then
    (st, [Ev.wire ("Cal," ++ calMode (qfloat (toLowerCL (splitFirstSpace rest).1)) ++ "," ++
      fmt2 (qfloat (toLowerCL (splitFirstSpace rest).1))) 4000])
  else (st, [Ev.msg "[Cal] Subcomando desconocido. Usa: clear|dry|low|mid|high|? o cal <uS/cm>"])

/-- The on/off encoding of the `o` branch (main.cpp:255):
`(onoff == "on") ? 1 : (onoff == "off" ? 0 : -1)`. -/
def onOffInt (onoff : List Char) : Int :=
  if onoff = "on".toList then 1 else if onoff = "off".toList then 0 else -1

/-- The `o` branch (main.cpp:248-264): channel and on/off split, both
lowercased, `O,?` query, `O,<ch>,<1|0>` for a known channel. -/
def oCmd (rest : List Char) (st : SessionState) : SessionState × List Ev :=
  if toLowerCL (splitFirstSpace rest).1 = "?".toList then (st, [Ev.wire "O,?" 1500])
  else if onOffInt (trimB (toLowerCL ((splitFirstSpace rest).2.getD []))) = -1 then
    (st, [Ev.msg "[O] Usa on|off. Ej: o ec on"])
  else if toLowerCL (splitFirstSpace rest).1 = "ec".toList ∨
      toLowerCL (splitFirstSpace rest).1 = "tds".toList ∨
      toLowerCL (splitFirstSpace rest).1 = "sal".toList ∨
      toLowerCL (splitFirstSpace rest).1 = "sg".toList then
    (st, [Ev.wire ("O," ++ String.mk (toLowerCL (splitFirstSpace rest).1) ++ "," ++
      toString (onOffInt (trimB (toLowerCL ((splitFirstSpace rest).2.getD []))))) 1500])
  else (st, [Ev.msg "[O] Canal desconocido. Usa: ec|tds|sal|sg"])

/-- The `stream` branch (main.cpp:265-269). -/
def streamCmd (rest : List Char) (st : SessionState) : SessionState × List Ev :=
  let r := toLowerCL rest
  if r = "on".toList then
    (⟨st.outputsConfigured, true, st.readPeriodMs, st.printRaw⟩, [Ev.msg "[Stream] ON"])
  else if r = "off".toList then
    (⟨st.outputsConfigured, false, st.readPeriodMs, st.printRaw⟩, [Ev.msg "[Stream] OFF"])
  else (st, [Ev.msg "[Stream] Usa: stream on|off"])

/-- The `period` branch (main.cpp:270-273): `ms = (unsigned long)rest.toInt()`
is the 32-bit unsigned reduction of the parsed long; zero is rejected. -/
def periodCmd (rest : List Char) (st : SessionState) : SessionState × List Ev :=
  if (qint rest % (2 ^ 32 : Int)).toNat = 0 then (st, [Ev.msg "[Period] Debe ser > 0 ms"])
  else
    (⟨st.outputsConfigured, st.streamingEnabled, (qint rest % (2 ^ 32 : Int)).toNat, st.printRaw⟩,
      [Ev.msg ("[Period] " ++ toString ((qint rest % (2 ^ 32 : Int)).toNat) ++ " ms")])

/-- The `raw` branch (main.cpp:274-278). -/
def rawCmd (rest : List Char) (st : SessionState) : SessionState × List Ev :=
  let r := toLowerCL rest
  if r = "on".toList then
    (⟨st.outputsConfigured, st.streamingEnabled, st.readPeriodMs, true⟩, [Ev.msg "[Raw] ON"])
  else if r = "off".toList then
    (⟨st.outputsConfigured, st.streamingEnabled, st.readPeriodMs, false⟩, [Ev.msg "[Raw] OFF"])
  else (st, [Ev.msg "[Raw] Usa: raw on|off"])

/-- The `led` branch (main.cpp:283-287). -/
def ledCmd (rest : List Char) (st : SessionState) : SessionState × List Ev :=
  let r := toLowerCL rest
  if r = "on".toList then (st, [Ev.wire "L,1" 1200])
  else if r = "off".toList then (st, [Ev.wire "L,0" 1200])
  else (st, [Ev.msg "[LED] Usa: led on|off"])

/-- The `c` branch (main.cpp:292-296). -/
def cCmd (rest : List Char) (st : SessionState) : SessionState × List Ev :=
  let r := toLowerCL rest
  if r = "on".toList then (st, [Ev.wire "C,1" 1200])
  else if r = "off".toList then (st, [Ev.wire "C,0" 1200])
  else (st, [Ev.msg "[C] Usa: c on|off"])

/-- The `k` branch (main.cpp:297-309).  The source's duplicated
`rest == "?" || rest == "?"` is a single comparison. -/
def kCmd (rest : List Char) (st : SessionState) : SessionState × List Ev :=
  if rest = "?".toList then (st, [Ev.wire "K,?" 1200])
  else
    let kv := qfloat rest
    if kv = 0 then (st, [Ev.msg "[K] Usa 0.1 | 1.0 | 10.0"])
    else (st, [Ev.wire ("K," ++ fmt1 kv) 1500])

/-- Verb dispatch of the command interpreter (main.cpp:203-312): `a` is the
lowercased verb, `rest` the trimmed argument tail, `cmd` the whole trimmed
line (echoed for unknown commands). -/
def dispatch (a rest cmd : List Char) (st : SessionState) : SessionState × List Ev :=
  if a = "help".toList then
    (st, [Ev.msg "[Ayuda] Comandos: help, r, t <C>, cal clear|dry|low|mid|high <v>, cal ?, o <canal> on|off"])
  else if a = "r".toList then (st, [Ev.wire "R" 1000])
  else if a = "t".toList then tCmd rest st
  else if a = "cal".toList then calCmd rest st
  else if a = "o".toList then oCmd rest st
  else if a = "stream".toList then streamCmd rest st
  else if a = "period".toList then periodCmd rest st
  else if a = "raw".toList then rawCmd rest st
  else if a = "i".toList then (st, [Ev.wire "I" 1500])
  else if a = "status".toList then (st, [Ev.wire "Status" 1500])
  else if a = "led".toList then ledCmd rest st
  else if a = "factory".toList then (st, [Ev.wire "Factory" 2000])
  else if a = "sleep".toList then (st, [Ev.wire "Sleep" 1200])
  else if a = "c".toList then cCmd rest st
  else if a = "k".toList then kCmd rest st
  else (st, [Ev.msg ("[CLI] Comando desconocido: " ++ String.mk cmd)])

/-- One interpreted operator line (main.cpp:196-312): trim, split the verb at
the first space, lowercase it, trim the tail, dispatch. -/
def processCommand (input : String) (st : SessionState) : SessionState × List Ev :=
  dispatch (toLowerCL (splitFirstSpace (trimB input.toList)).1)
    (trimB ((splitFirstSpace (trimB input.toList)).2.getD []))
    (trimB input.toList) st

/-- First value bound to a key in a label/value pair list. -/
def lookupV : List (String × String) → String → Option String
  | [], _ => none
  | p :: ps, lbl => if p.1 = lbl then some p.2 else lookupV ps lbl

/-- Field value the labeled parse produces for a label: the trimmed,
float-parsed paired value when the label occurs, otherwise a default. -/
def fieldOfD (pairs : List (String × String)) (lbl : String) (dflt : ℚ) : ℚ :=
  match lookupV pairs lbl with
  | some v => qfloat (trimB v.toList)
  | none => dflt

/-- Field value of a label in a labeled reading; absent labels default to 0. -/
def fieldOf (pairs : List (String × String)) (lbl : String) : ℚ :=
  fieldOfD pairs lbl 0

/-- Comma-token sequence of a well-formed labeled reply built from
label/value pairs: each label token immediately followed by its value
token. -/
def pairTokens (pairs : List (String × String)) : List (List Char) :=
  pairs.flatMap fun p => [p.1.toList, p.2.toList]

example : parseEcLine "84.0" 0 0 0 0 = (true, 84, 0, 0, 0) := by decide
example : parseEcLine "*OK" 1 2 3 4 = (false, 1, 2, 3, 4) := by decide
example : parseEcLine "" 1 2 3 4 = (false, 1, 2, 3, 4) := by decide
example : parseEcLine "1413,700" 1 2 3 4 = (false, 1, 2, 3, 4) := by decide
example : parseEcLine "1413,700,700,1.001" 0 0 0 0 = (true, 1413, 700, 700, mkRat 1001 1000) := by decide
example : parseEcLine "EC,1413,TDS,700,SAL,700,SG,1.001" 0 0 0 0 = (true, 1413, 700, 700, mkRat 1001 1000) := by decide
example : parseEcLine "TDS,700,SAL,700" 1 2 3 4 = (false, 1, 2, 3, 4) := by decide
example : parseEcLine "1,2,3,4,5" 0 0 0 0 = (true, 1, 2, 3, 4) := by decide
example : parseEcLine "ECX" 7 8 9 10 = (false, 7, 8, 9, 10) := by decide
example : ezoReadLine "AB".toList = "AB" := by decide
example : fmt2 150 = "150.00" := by decide
example : fmt2 (-5) = "-5.00" := by decide
example : qfloat " -12.5e1".toList = -125 := by decide
example : qint "  -5x".toList = -5 := by decide
example : processCommand "o ec on" initialState = (initialState, [Ev.wire "O,ec,1" 1500]) := by decide
example : processCommand "o ec off" initialState = (initialState, [Ev.wire "O,ec,0" 1500]) := by decide
example : processCommand "cal 150" initialState = (initialState, [Ev.wire "Cal,low,150.00" 4000]) := by decide
example : processCommand "cal 1413" initialState = (initialState, [Ev.wire "Cal,mid,1413.00" 4000]) := by decide
example : processCommand "cal 5000" initialState = (initialState, [Ev.wire "Cal,high,5000.00" 4000]) := by decide
example : processCommand "cal 200" initialState = (initialState, [Ev.wire "Cal,low,200.00" 4000]) := by decide
example : processCommand "cal 3000" initialState = (initialState, [Ev.wire "Cal,mid,3000.00" 4000]) := by decide
example : processCommand "period 0" initialState = (initialState, [Ev.msg "[Period] Debe ser > 0 ms"]) := by decide
example : (processCommand "period -5" initialState).1.readPeriodMs = 4294967291 := by decide
example : processCommand "t" initialState = (initialState, [Ev.wire "T,0.00" 1200]) := by decide
example : processCommand "t abc" initialState = (initialState, [Ev.wire "T,0.00" 1200]) := by decide
example : processCommand "t 25.0" initialState = (initialState, [Ev.wire "T,25.00" 1200]) := by decide
example : processCommand "k 0.1" initialState = (initialState, [Ev.wire "K,0.1" 1500]) := by decide
example : fieldOf [("EC", "1413"), ("SG", "1.001")] "TDS" = 0 := by decide

theorem ezoReadLineAux_no_cr (bytes : List Char) (acc : List Char)
    (h : '\r' ∉ bytes) :
    ezoReadLineAux bytes acc = acc ++ bytes.filter isPrintableB := by
  induction bytes generalizing acc with
  | nil => simp [ezoReadLineAux]
  | cons c r ih =>
    simp only [List.mem_cons, not_or] at h
    unfold ezoReadLineAux
    rw [if_neg (fun hc => h.1 hc.symm)]
    by_cases hp : isPrintableB c
    · rw [if_pos hp, ih _ h.2, List.filter_cons_of_pos hp]
      simp
    · rw [if_neg hp, ih _ h.2, List.filter_cons_of_neg hp]

theorem tCmd_state (rest : List Char) (st : SessionState) : (tCmd rest st).1 = st := by
  unfold tCmd; split <;> rfl

theorem calCmd_state (rest : List Char) (st : SessionState) : (calCmd rest st).1 = st := by
  unfold calCmd; repeat' split
  all_goals rfl

theorem oCmd_state (rest : List Char) (st : SessionState) : (oCmd rest st).1 = st := by
  unfold oCmd; repeat' split
  all_goals rfl

theorem ledCmd_state (rest : List Char) (st : SessionState) : (ledCmd rest st).1 = st := by
  simp only [ledCmd]; repeat' split
  all_goals rfl

theorem cCmd_state (rest : List Char) (st : SessionState) : (cCmd rest st).1 = st := by
  simp only [cCmd]; repeat' split
  all_goals rfl

theorem kCmd_state (rest : List Char) (st : SessionState) : (kCmd rest st).1 = st := by
  simp only [kCmd]; repeat' split
  all_goals rfl

theorem streamCmd_readPeriod (rest : List Char) (st : SessionState) :
    (streamCmd rest st).1.readPeriodMs = st.readPeriodMs := by
  simp only [streamCmd]; repeat' split
  all_goals rfl

theorem rawCmd_readPeriod (rest : List Char) (st : SessionState) :
    (rawCmd rest st).1.readPeriodMs = st.readPeriodMs := by
  simp only [rawCmd]; repeat' split
  all_goals rfl

theorem periodCmd_readPeriod_pos (rest : List Char) (st : SessionState)
    (h : 0 < st.readPeriodMs) : 0 < (periodCmd rest st).1.readPeriodMs := by
  unfold periodCmd; split
  · simpa using h
  · rename_i hms
    simpa using Nat.pos_of_ne_zero hms

theorem dispatch_readPeriod_pos (a rest cmd : List Char) (st : SessionState)
    (h : 0 < st.readPeriodMs) : 0 < (dispatch a rest cmd st).1.readPeriodMs := by
  unfold dispatch
  by_cases h1 : a = "help".toList
  · rw [if_pos h1]; exact h
  rw [if_neg h1]
  by_cases h2 : a = "r".toList
  · rw [if_pos h2]; exact h
  rw [if_neg h2]
  by_cases h3 : a = "t".toList
  · rw [if_pos h3, tCmd_state]; exact h
  rw [if_neg h3]
  by_cases h4 : a = "cal".toList
  · rw [if_pos h4, calCmd_state]; exact h
  rw [if_neg h4]
  by_cases h5 : a = "o".toList
  · rw [if_pos h5, oCmd_state]; exact h
  rw [if_neg h5]
  by_cases h6 : a = "stream".toList
  · rw [if_pos h6, streamCmd_readPeriod]; exact h
  rw [if_neg h6]
  by_cases h7 : a = "period".toList
  · rw [if_pos h7]; exact periodCmd_readPeriod_pos _ _ h
  rw [if_neg h7]
  by_cases h8 : a = "raw".toList
  · rw [if_pos h8, rawCmd_readPeriod]; exact h
  rw [if_neg h8]
  by_cases h9 : a = "i".toList
  · rw [if_pos h9]; exact h
  rw [if_neg h9]
  by_cases h10 : a = "status".toList
  · rw [if_pos h10]; exact h
  rw [if_neg h10]
  by_cases h11 : a = "led".toList
  · rw [if_pos h11, ledCmd_state]; exact h
  rw [if_neg h11]
  by_cases h12 : a = "factory".toList
  · rw [if_pos h12]; exact h
  rw [if_neg h12]
  by_cases h13 : a = "sleep".toList
  · rw [if_pos h13]; exact h
  rw [if_neg h13]
  by_cases h14 : a = "c".toList
  · rw [if_pos h14, cCmd_state]; exact h
  rw [if_neg h14]
  by_cases h15 : a = "k".toList
  · rw [if_pos h15, kCmd_state]; exact h
  rw [if_neg h15]
  exact h

/-- Claim C7: the session invariant `readPeriodMs > 0` holds initially (the
default is 1000) and is preserved by every operator command; in particular
`period 0` is rejected with a usage message and leaves the whole state, and
so the prior `readPeriodMs`, unchanged. -/
theorem c7_readPeriod_invariant (input : String) (st : SessionState)
    (h : 0 < st.readPeriodMs) :
    0 < (processCommand input st).1.readPeriodMs ∧
    initialState.readPeriodMs = 1000 ∧
    processCommand "period 0" st = (st, [Ev.msg "[Period] Debe ser > 0 ms"]) := by
  refine ⟨?_, rfl, rfl⟩
  unfold processCommand
  exact dispatch_readPeriod_pos _ _ _ _ h

theorem c7_readPeriod_invariant_witness :
    0 < (processCommand "stream on" initialState).1.readPeriodMs ∧
    processCommand "period 0" initialState = (initialState, [Ev.msg "[Period] Debe ser > 0 ms"]) := by
  have h := c7_readPeriod_invariant "stream on" initialState (by decide)
  have h' := c7_readPeriod_invariant "period 0" initialState (by decide)
  exact ⟨h.1, h'.2.2⟩

/-- Claim C8: whenever `parseEcLine` returns `false`, it writes none of its
four output parameters: the caller's prior values are returned unchanged on
every failing path. -/
theorem c8_no_write_on_failure (line : String) (ec tds sal sg : ℚ)
    (h : (parseEcLine line ec tds sal sg).1 = false) :
    parseEcLine line ec tds sal sg = (false, ec, tds, sal, sg) := by
  unfold parseEcLine at h ⊢
  repeat' split
  all_goals simp_all

theorem c8_no_write_on_failure_witness :
    parseEcLine "TDS,700" 11 12 13 14 = (false, 11, 12, 13, 14) :=
  c8_no_write_on_failure "TDS,700" 11 12 13 14 (by decide)

/-- Claim C2 counterexample: a byte stream delivering printable bytes but no
carriage-return terminator makes `ezoReadLine` time out with a non-empty
result, so the empty string is not the only timeout outcome. -/
theorem c2_timeout_counterexample :
    ('\r' ∉ "AB".toList) ∧ ezoReadLine "AB".toList = "AB" ∧ "AB" ≠ "" := by
  refine ⟨by decide, by decide, by decide⟩

/-- Claim C2 (amended): when the timeout elapses with no carriage-return
among the delivered bytes, `ezoReadLine` returns the printable bytes
accumulated so far; the result is empty only in the particular case that no
printable byte was delivered. -/
theorem c2_timeout_returns_accumulated (bytes : List Char) (h : '\r' ∉ bytes) :
    ezoReadLine bytes = String.mk (bytes.filter isPrintableB) ∧
    (ezoReadLine bytes = "" ↔ bytes.filter isPrintableB = []) := by
  have ha := ezoReadLineAux_no_cr bytes [] h
  constructor
  · simp [ezoReadLine, ha]
  · rw [ezoReadLine, ha]
    simp [String.ext_iff]

theorem c2_timeout_returns_accumulated_witness :
    ezoReadLine "AB".toList = String.mk ("AB".toList.filter isPrintableB) :=
  (c2_timeout_returns_accumulated "AB".toList (by decide)).1

/-- Claim C3 counterexample: the accepted command `o ec on` issues the wire
command `O,ec,1` with the channel name lowercased, not the uppercase
`O,EC,1` the claim requires. -/
theorem c3_channel_case_counterexample :
    processCommand "o ec on" initialState = (initialState, [Ev.wire "O,ec,1" 1500]) ∧
    Ev.wire "O,ec,1" 1500 ≠ Ev.wire "O,EC,1" 1500 := by
  refine ⟨by decide, by decide⟩

/-- Claim C3 (amended): an accepted `o <ch> on` followed by `o <ch> off`
issues exactly the two wire commands `O,<ch>,1` and `O,<ch>,0`, with the
channel name in the lowercase form `ec|tds|sal|sg` (the handler lowercases
the typed channel before building the command), the on/off state encoded as
1/0, and no session state modified. -/
theorem c3_output_toggle_roundtrip (ch : String) (st : SessionState)
    (h : ch = "ec" ∨ ch = "tds" ∨ ch = "sal" ∨ ch = "sg") :
    processCommand ("o " ++ ch ++ " on") st = (st, [Ev.wire ("O," ++ ch ++ ",1") 1500]) ∧
    processCommand ("o " ++ ch ++ " off") st = (st, [Ev.wire ("O," ++ ch ++ ",0") 1500]) := by
  rcases h with h | h | h | h <;> subst h <;> exact ⟨rfl, rfl⟩

theorem c3_output_toggle_roundtrip_witness :
    processCommand "o sal on" initialState = (initialState, [Ev.wire "O,sal,1" 1500]) ∧
    processCommand "o sal off" initialState = (initialState, [Ev.wire "O,sal,0" 1500]) := by
  have h := c3_output_toggle_roundtrip "sal" initialState (by decide)
  exact ⟨h.1.trans (by decide), h.2.trans (by decide)⟩

theorem neTrueOfEqFalse {b : Bool} (h : b = false) : ¬b = true := by
  simp [h]

theorem splitCommas_ne_nil (s : List Char) : splitCommas s ≠ [] := by
  cases s with
  | nil => simp [splitCommas]
  | cons c r =>
    unfold splitCommas
    by_cases hc : c = ','
    · rw [if_pos hc]; simp
    · rw [if_neg hc]
      cases hr : splitCommas r with
      | nil => simp
      | cons t ts => simp

/-- Claim C1 counterexample: the unlabeled line `1,2,3,4,5` has four commas,
yet `parseEcLine` accepts it as a reading (everything after the third comma
is float-parsed as the fourth field), contradicting the claim that 4-or-more
commas yield `false`. -/
theorem c1_arity_counterexample :
    (splitCommas (trimB "1,2,3,4,5".toList)).length = 5 ∧
    labelRoute (trimB "1,2,3,4,5".toList) = false ∧
    parseEcLine "1,2,3,4,5" 0 0 0 0 = (true, 1, 2, 3, 4) := by
  refine ⟨by decide, by decide, by decide⟩

/-- Claim C1 (amended): in the unlabeled format the line is rejected exactly
when its comma count is 1 or 2 (token counts 2 or 3); a line with 3 or more
commas (4 or more tokens) is accepted as a reading, the first three fields
parsed positionally and the fourth field parsed from everything after the
third comma. -/
theorem c1_unlabeled_arity (line : String) (ec tds sal sg : ℚ)
    (h1 : trimB line.toList ≠ [])
    (h2 : isPrefixB "*OK".toList (trimB line.toList) = false)
    (h3 : labelRoute (trimB line.toList) = false) :
    ((splitCommas (trimB line.toList)).length = 2 ∨
        (splitCommas (trimB line.toList)).length = 3 →
      parseEcLine line ec tds sal sg = (false, ec, tds, sal, sg)) ∧
    ((parseEcLine line ec tds sal sg).1 = false →
      (splitCommas (trimB line.toList)).length = 2 ∨
        (splitCommas (trimB line.toList)).length = 3) ∧
    (∀ a b c ds, splitCommas (trimB line.toList) = a :: b :: c :: ds → ds ≠ [] →
      parseEcLine line ec tds sal sg =
        (true, qfloat a, qfloat b, qfloat c, qfloat (joinCommas ds))) := by
  unfold parseEcLine
  rw [if_neg h1, if_neg (neTrueOfEqFalse h2), if_neg (neTrueOfEqFalse h3)]
  refine ⟨?_, ?_, ?_⟩
  · rintro (h4 | h4)
    · obtain ⟨x, y, hxy⟩ := List.length_eq_two.mp h4
      rw [hxy]
    · obtain ⟨x, y, z, hxyz⟩ := List.length_eq_three.mp h4
      rw [hxyz]
  · intro h5
    rcases hS : splitCommas (trimB line.toList) with _ | ⟨a, _ | ⟨b, _ | ⟨c, _ | ⟨d, tl⟩⟩⟩⟩ <;>
      rw [hS] at h5
    · exact absurd hS (splitCommas_ne_nil _)
    · simp at h5
    · exact Or.inl (by simp)
    · exact Or.inr (by simp)
    · simp at h5
  · intro a b c ds hS hds
    rcases ds with _ | ⟨d, tl⟩
    · exact absurd rfl hds
    · rw [hS]

theorem c1_unlabeled_arity_witness :
    parseEcLine "1413,700" 21 22 23 24 = (false, 21, 22, 23, 24) ∧
    parseEcLine "1413,700,700,1.001" 0 0 0 0 = (true, 1413, 700, 700, mkRat 1001 1000) := by
  have h1 := (c1_unlabeled_arity "1413,700" 21 22 23 24 (by decide) (by decide) (by decide)).1
    (Or.inl (by decide))
  have h2 := (c1_unlabeled_arity "1413,700,700,1.001" 0 0 0 0 (by decide) (by decide)
    (by decide)).2.2 "1413".toList "700".toList "700".toList ["1.001".toList]
    (by decide) (by decide)
  exact ⟨h1, h2.trans (by decide)⟩

/-- Claim C4 counterexample: the line `ECX` contains no comma token exactly
equal to a label (its only token is `ECX`), yet because `EC` occurs as a
substring the code routes it to the labeled parser, which rejects it; the
claim instead requires it to be parsed as an unlabeled single-field reading
and accepted. -/
theorem c4_route_counterexample :
    trimB "ECX".toList = "ECX".toList ∧
    splitCommas "ECX".toList = ["ECX".toList] ∧
    ("ECX".toList ≠ "EC".toList ∧ "ECX".toList ≠ "TDS".toList ∧
      "ECX".toList ≠ "SAL".toList ∧ "ECX".toList ≠ "SG".toList) ∧
    (parseEcLine "ECX" 7 8 9 10).1 = false := by
  refine ⟨by decide, by decide, ⟨by decide, by decide, by decide, by decide⟩, by decide⟩

/-- Claim C4 (amended): the labeled/unlabeled routing is decided by substring
containment, not token equality: a trimmed non-empty line not beginning with
`*OK` that contains none of `EC`, `TDS`, `SAL`, `SG` as a substring is
parsed as the unlabeled format, and with zero commas the whole line is taken
as the EC value and accepted as a valid reading with TDS/SAL/SG zero. -/
theorem c4_single_field_reading (line : String) (ec tds sal sg : ℚ)
    (h1 : trimB line.toList ≠ [])
    (h2 : isPrefixB "*OK".toList (trimB line.toList) = false)
    (h3 : labelRoute (trimB line.toList) = false)
    (h4 : (splitCommas (trimB line.toList)).length = 1) :
    parseEcLine line ec tds sal sg = (true, qfloat (trimB line.toList), 0, 0, 0) := by
  unfold parseEcLine
  rw [if_neg h1, if_neg (neTrueOfEqFalse h2), if_neg (neTrueOfEqFalse h3)]
  obtain ⟨x, hx⟩ := List.length_eq_one.mp h4
  rw [hx]

theorem c4_single_field_reading_witness :
    parseEcLine "84.0" 0 0 0 0 = (true, 84, 0, 0, 0) :=
  (c4_single_field_reading "84.0" 0 0 0 0 (by decide) (by decide) (by decide)
    (by decide)).trans (by decide)

theorem calShortcut_ne_literals (b : List Char) (hs : calShortcut b = true) :
    b ≠ "clear".toList ∧ b ≠ "dry".toList ∧ b ≠ "?".toList ∧
      ¬(b = "low".toList ∨ b = "mid".toList ∨ b = "high".toList) := by
  refine ⟨?_, ?_, ?_, ?_⟩
  · intro hb; rw [hb] at hs; exact absurd hs (by decide)
  · intro hb; rw [hb] at hs; exact absurd hs (by decide)
  · intro hb; rw [hb] at hs; exact absurd hs (by decide)
  · rintro (hb | hb | hb) <;> (rw [hb] at hs; exact absurd hs (by decide))

/-- Claim C5: a `cal <v>` command whose first argument token starts with a
digit, `+` or `-` auto-selects the calibration mode by threshold on the
parsed value (at most 200 selects `low`, at most 3000 selects `mid`,
otherwise `high`, both boundaries inclusive) and issues
`Cal,<mode>,<value>` with the value formatted to two decimals, leaving the
session state unchanged. -/
theorem c5_cal_shortcut (input : String) (st : SessionState) (b : List Char)
    (ha : toLowerCL (splitFirstSpace (trimB input.toList)).1 = "cal".toList)
    (hb : b = toLowerCL (splitFirstSpace
      (trimB ((splitFirstSpace (trimB input.toList)).2.getD []))).1)
    (hs : calShortcut b = true) :
    processCommand input st =
      (st, [Ev.wire ("Cal," ++ calMode (qfloat b) ++ "," ++ fmt2 (qfloat b)) 4000]) := by
  subst hb
  obtain ⟨hc1, hc2, hc3, hc4⟩ := calShortcut_ne_literals _ hs
  unfold processCommand dispatch
  rw [ha, if_neg (by decide), if_neg (by decide), if_neg (by decide), if_pos rfl]
  unfold calCmd
  rw [if_neg hc1, if_neg hc2, if_neg hc3, if_neg hc4, if_pos hs]

theorem c5_cal_shortcut_witness :
    processCommand "cal 150" initialState = (initialState, [Ev.wire "Cal,low,150.00" 4000]) ∧
    processCommand "cal 5000" initialState = (initialState, [Ev.wire "Cal,high,5000.00" 4000]) := by
  have h1 := c5_cal_shortcut "cal 150" initialState "150".toList (by decide) (by decide) (by decide)
  have h2 := c5_cal_shortcut "cal 5000" initialState "5000".toList (by decide) (by decide) (by decide)
  exact ⟨h1.trans (by decide), h2.trans (by decide)⟩

/-- Claim C9: a `period` argument parsing to a negative integer is accepted:
the parsed long is converted to unsigned long modulo 2^32 (so `period -5`
sets `readPeriodMs` to 4294967291), and exactly the arguments whose integer
parse is 0 — including non-numeric text — are rejected.  The hypothesis
restricts the parsed value to the representable range of the 32-bit `long`
(beyond it the source's `toInt` is undefined behaviour). -/
theorem c9_period_negative_accepted (input : String) (st : SessionState) (r : List Char)
    (ha : toLowerCL (splitFirstSpace (trimB input.toList)).1 = "period".toList)
    (hr : r = trimB ((splitFirstSpace (trimB input.toList)).2.getD []))
    (hrange : -(2 ^ 31) ≤ qint r ∧ qint r < 2 ^ 31) :
    (qint r = 0 → processCommand input st = (st, [Ev.msg "[Period] Debe ser > 0 ms"])) ∧
    (qint r ≠ 0 →
      processCommand input st =
        (⟨st.outputsConfigured, st.streamingEnabled, (qint r % (2 ^ 32 : Int)).toNat,
            st.printRaw⟩,
          [Ev.msg ("[Period] " ++ toString ((qint r % (2 ^ 32 : Int)).toNat) ++ " ms")])) := by
  subst hr
  obtain ⟨hlo, hhi⟩ := hrange
  unfold processCommand dispatch
  rw [ha, if_neg (by decide), if_neg (by decide), if_neg (by decide), if_neg (by decide),
    if_neg (by decide), if_neg (by decide), if_pos rfl]
  unfold periodCmd
  constructor
  · intro h0
    rw [if_pos (by rw [h0]; decide)]
  · intro hne
    rw [if_neg (by omega)]

theorem c9_period_negative_accepted_witness :
    (processCommand "period -5" initialState).1.readPeriodMs = 4294967291 ∧
    processCommand "period abc" initialState = (initialState, [Ev.msg "[Period] Debe ser > 0 ms"]) := by
  have h1 := (c9_period_negative_accepted "period -5" initialState "-5".toList
    (by decide) (by decide) (by decide)).2 (by decide)
  have h2 := (c9_period_negative_accepted "period abc" initialState "abc".toList
    (by decide) (by decide) (by decide)).1 (by decide)
  rw [h1]
  exact ⟨by decide, h2⟩

/-- Claim C10: a `t <rest>` command whose trimmed argument is not the
literal `?` is never rejected: the interpreter always issues `T,<v>` with
`v` the float parse of the argument formatted to two decimals, defaulting
to 0 on parse failure, and leaves the session state unchanged. -/
theorem c10_t_always_sends (input : String) (st : SessionState)
    (ha : toLowerCL (splitFirstSpace (trimB input.toList)).1 = "t".toList)
    (hq : trimB ((splitFirstSpace (trimB input.toList)).2.getD []) ≠ "?".toList) :
    processCommand input st =
      (st, [Ev.wire ("T," ++
        fmt2 (qfloat (trimB ((splitFirstSpace (trimB input.toList)).2.getD [])))) 1200]) := by
  unfold processCommand dispatch
  rw [ha, if_neg (by decide), if_neg (by decide), if_pos rfl]
  unfold tCmd
  rw [if_neg hq]

theorem splitCommas_head_leading (s t : List Char) (ts : List (List Char))
    (h : splitCommas s = t :: ts) : t <+: s := by
  induction s generalizing t ts with
  | nil =>
    simp only [splitCommas] at h
    injection h with h1 _
    rw [← h1]
  | cons c r ih =>
    unfold splitCommas at h
    by_cases hc : c = ','
    · rw [if_pos hc] at h
      injection h with h1 _
      rw [← h1]
      exact ⟨c :: r, rfl⟩
    · rw [if_neg hc] at h
      cases hr : splitCommas r with
      | nil => exact absurd hr (splitCommas_ne_nil r)
      | cons u us =>
        rw [hr] at h
        injection h with h1 _
        obtain ⟨w, hw⟩ := ih u us hr
        exact ⟨w, by rw [← h1]; simp [hw]⟩

theorem isPrefixB_iff (p l : List Char) : isPrefixB p l = true ↔ p <+: l := by
  induction p generalizing l with
  | nil => simp [isPrefixB]
  | cons a as ih =>
    cases l with
    | nil =>
      simp [isPrefixB]
    | cons b bs =>
      simp only [isPrefixB, Bool.and_eq_true, decide_eq_true_eq, ih]
      constructor
      · rintro ⟨hab, hp⟩
        subst hab
        obtain ⟨w, hw⟩ := hp
        exact ⟨w, by simp [hw]⟩
      · rintro ⟨w, hw⟩
        injection hw with h1 h2
        exact ⟨h1, ⟨w, h2⟩⟩

theorem isInfixB_of_leading (p l : List Char) (h : p <+: l) : isInfixB p l = true := by
  cases l with
  | nil =>
    unfold isInfixB
    exact (isPrefixB_iff p []).mpr h
  | cons c r =>
    unfold isInfixB
    rw [(isPrefixB_iff p (c :: r)).mpr h]
    simp

theorem lookupV_not_mem (ps : List (String × String)) (l : String)
    (h : l ∉ ps.map Prod.fst) : lookupV ps l = none := by
  induction ps with
  | nil => rfl
  | cons q qs ih =>
    simp only [List.map_cons, List.mem_cons, not_or] at h
    unfold lookupV
    rw [if_neg (fun he => h.1 he.symm)]
    exact ih h.2

theorem lookupV_cons (l' v l : String) (ps : List (String × String)) :
    lookupV ((l', v) :: ps) l = if l' = l then some v else lookupV ps l := rfl

theorem fieldOfD_cons_hit (l : String) (v : String) (ps : List (String × String)) (d : ℚ) :
    fieldOfD ((l, v) :: ps) l d = qfloat (trimB v.toList) := by
  unfold fieldOfD
  rw [lookupV_cons, if_pos rfl]

theorem fieldOfD_cons_miss (l' l : String) (v : String) (ps : List (String × String)) (d : ℚ)
    (hne : l' ≠ l) : fieldOfD ((l', v) :: ps) l d = fieldOfD ps l d := by
  unfold fieldOfD
  rw [lookupV_cons, if_neg hne]

theorem fieldOfD_not_mem (ps : List (String × String)) (l : String) (d : ℚ)
    (h : l ∉ ps.map Prod.fst) : fieldOfD ps l d = d := by
  unfold fieldOfD
  rw [lookupV_not_mem ps l h]

theorem pairTokens_cons (p : String × String) (ps : List (String × String)) :
    pairTokens (p :: ps) = p.1.toList :: p.2.toList :: pairTokens ps := by
  simp [pairTokens]

theorem labeledWalk_cons_EC (v : List Char) (rest : List (List Char))
    (lec ltds lsal lsg : ℚ) (ef : Bool) :
    labeledWalk ("EC".toList :: v :: rest) lec ltds lsal lsg ef =
      labeledWalk rest (qfloat (trimB v)) ltds lsal lsg true := rfl

theorem labeledWalk_cons_TDS (v : List Char) (rest : List (List Char))
    (lec ltds lsal lsg : ℚ) (ef : Bool) :
    labeledWalk ("TDS".toList :: v :: rest) lec ltds lsal lsg ef =
      labeledWalk rest lec (qfloat (trimB v)) lsal lsg ef := rfl

theorem labeledWalk_cons_SAL (v : List Char) (rest : List (List Char))
    (lec ltds lsal lsg : ℚ) (ef : Bool) :
    labeledWalk ("SAL".toList :: v :: rest) lec ltds lsal lsg ef =
      labeledWalk rest lec ltds (qfloat (trimB v)) lsg ef := rfl

theorem labeledWalk_cons_SG (v : List Char) (rest : List (List Char))
    (lec ltds lsal lsg : ℚ) (ef : Bool) :
    labeledWalk ("SG".toList :: v :: rest) lec ltds lsal lsg ef =
      labeledWalk rest lec ltds lsal (qfloat (trimB v)) ef := rfl

theorem labeledWalk_pairTokens (pairs : List (String × String))
    (hlab : ∀ p ∈ pairs, p.1 = "EC" ∨ p.1 = "TDS" ∨ p.1 = "SAL" ∨ p.1 = "SG")
    (hnd : (pairs.map Prod.fst).Nodup) :
    ∀ (lec ltds lsal lsg : ℚ) (ef : Bool),
      labeledWalk (pairTokens pairs) lec ltds lsal lsg ef =
        (fieldOfD pairs "EC" lec, fieldOfD pairs "TDS" ltds, fieldOfD pairs "SAL" lsal,
          fieldOfD pairs "SG" lsg, ef || decide ("EC" ∈ pairs.map Prod.fst)) := by
  induction pairs with
  | nil =>
    intro lec ltds lsal lsg ef
    simp [pairTokens, labeledWalk, fieldOfD, lookupV]
  | cons q qs ih =>
    intro lec ltds lsal lsg ef
    obtain ⟨l, v⟩ := q
    have hl : l = "EC" ∨ l = "TDS" ∨ l = "SAL" ∨ l = "SG" :=
      hlab (l, v) (List.mem_cons_self _ _)
    have hlab' : ∀ p ∈ qs, p.1 = "EC" ∨ p.1 = "TDS" ∨ p.1 = "SAL" ∨ p.1 = "SG" :=
      fun p hp => hlab p (List.mem_cons_of_mem _ hp)
    have hndc : l ∉ qs.map Prod.fst ∧ (qs.map Prod.fst).Nodup := by
      simpa [List.nodup_cons] using hnd
    rcases hl with hl | hl | hl | hl <;> subst hl
    · rw [pairTokens_cons, labeledWalk_cons_EC, ih hlab' hndc.2,
        fieldOfD_cons_hit, fieldOfD_not_mem qs "EC" _ hndc.1,
        fieldOfD_cons_miss _ _ _ _ _ (by decide), fieldOfD_cons_miss _ _ _ _ _ (by decide),
        fieldOfD_cons_miss _ _ _ _ _ (by decide)]
      simp
    · rw [pairTokens_cons, labeledWalk_cons_TDS, ih hlab' hndc.2,
        fieldOfD_cons_hit, fieldOfD_not_mem qs "TDS" _ hndc.1,
        fieldOfD_cons_miss _ _ _ _ _ (by decide), fieldOfD_cons_miss _ _ _ _ _ (by decide),
        fieldOfD_cons_miss _ _ _ _ _ (by decide)]
      simp
    · rw [pairTokens_cons, labeledWalk_cons_SAL, ih hlab' hndc.2,
        fieldOfD_cons_hit, fieldOfD_not_mem qs "SAL" _ hndc.1,
        fieldOfD_cons_miss _ _ _ _ _ (by decide), fieldOfD_cons_miss _ _ _ _ _ (by decide),
        fieldOfD_cons_miss _ _ _ _ _ (by decide)]
      simp
    · rw [pairTokens_cons, labeledWalk_cons_SG, ih hlab' hndc.2,
        fieldOfD_cons_hit, fieldOfD_not_mem qs "SG" _ hndc.1,
        fieldOfD_cons_miss _ _ _ _ _ (by decide), fieldOfD_cons_miss _ _ _ _ _ (by decide),
        fieldOfD_cons_miss _ _ _ _ _ (by decide)]
      simp

/-- Claim C6: for every reply line in the labeled format (any subset of the
labels `EC`, `TDS`, `SAL`, `SG` in any order, each label token immediately
followed by its value token), `parseEcLine` yields a valid reading if and
only if the `EC` label occurs; on success the EC output is the value paired
with the `EC` label and every absent field defaults to 0, and when `EC` is
absent the line is not a reading even though other labels are present. -/
theorem c6_labeled_requires_ec (line : String) (pairs : List (String × String))
    (ec tds sal sg : ℚ)
    (hsplit : splitCommas (trimB line.toList) = pairTokens pairs)
    (hlab : ∀ p ∈ pairs, p.1 = "EC" ∨ p.1 = "TDS" ∨ p.1 = "SAL" ∨ p.1 = "SG")
    (hnd : (pairs.map Prod.fst).Nodup)
    (hne : pairs ≠ []) :
    ("EC" ∈ pairs.map Prod.fst →
      parseEcLine line ec tds sal sg =
        (true, fieldOf pairs "EC", fieldOf pairs "TDS", fieldOf pairs "SAL",
          fieldOf pairs "SG")) ∧
    ("EC" ∉ pairs.map Prod.fst →
      parseEcLine line ec tds sal sg = (false, ec, tds, sal, sg)) := by
  rcases pairs with _ | ⟨⟨l, v⟩, qs⟩
  · exact absurd rfl hne
  have hl : l = "EC" ∨ l = "TDS" ∨ l = "SAL" ∨ l = "SG" :=
    hlab (l, v) (List.mem_cons_self _ _)
  have hpre : l.toList <+: trimB line.toList :=
    splitCommas_head_leading _ _ _ (by rw [hsplit, pairTokens_cons])
  have hs_ne : trimB line.toList ≠ [] := by
    intro h0
    rw [h0] at hpre
    have hnil : l.toList = [] := List.prefix_nil.mp hpre
    rcases hl with hl | hl | hl | hl <;> subst hl <;> simp at hnil
  have hok : ¬(isPrefixB "*OK".toList (trimB line.toList) = true) := by
    intro hOK
    rw [isPrefixB_iff] at hOK
    obtain ⟨t1, ht1⟩ := hOK
    obtain ⟨t2, ht2⟩ := hpre
    rcases hl with hl | hl | hl | hl <;> subst hl <;>
      (rw [← ht2] at ht1; simp at ht1)
  have hroute : labelRoute (trimB line.toList) = true := by
    unfold labelRoute
    rcases hl with hl | hl | hl | hl <;> subst hl <;>
      rw [isInfixB_of_leading _ _ hpre] <;> simp
  unfold parseEcLine
  rw [if_neg hs_ne, if_neg hok, if_pos hroute, hsplit,
    labeledWalk_pairTokens ((l, v) :: qs) hlab hnd 0 0 0 0 false]
  constructor
  · intro hmem
    simp only [decide_eq_true hmem, Bool.false_or]
    rfl
  · intro hnmem
    simp only [decide_eq_false hnmem, Bool.false_or]

theorem c6_labeled_requires_ec_witness :
    parseEcLine "EC,1413,TDS,700,SAL,700,SG,1.001" 0 0 0 0 =
      (true, 1413, 700, 700, mkRat 1001 1000) ∧
    parseEcLine "SG,1.001,TDS,700" 31 32 33 34 = (false, 31, 32, 33, 34) := by
  have h1 := (c6_labeled_requires_ec "EC,1413,TDS,700,SAL,700,SG,1.001"
    [("EC", "1413"), ("TDS", "700"), ("SAL", "700"), ("SG", "1.001")] 0 0 0 0
    (by decide) (by decide) (by decide) (by decide)).1 (by decide)
  have h2 := (c6_labeled_requires_ec "SG,1.001,TDS,700"
    [("SG", "1.001"), ("TDS", "700")] 31 32 33 34
    (by decide) (by decide) (by decide) (by decide)).2 (by decide)
  exact ⟨h1.trans (by decide), h2⟩

theorem c10_t_always_sends_witness :
    processCommand "t abc" initialState = (initialState, [Ev.wire "T,0.00" 1200]) ∧
    processCommand "t" initialState = (initialState, [Ev.wire "T,0.00" 1200]) := by
  have h1 := c10_t_always_sends "t abc" initialState (by decide) (by decide)
  have h2 := c10_t_always_sends "t" initialState (by decide) (by decide)
  exact ⟨h1.trans (by decide), h2.trans (by decide)⟩
